import Mathlib

/-!
Shallow embedding of the realtime chat server (`server/index.js`): the data
model backed by the relational store, the conversation get-or-create
resolver (`POST /conversations`), user search (`GET /users/search`),
message history pagination (`GET /messages`), and the Socket.IO event
handlers (`typing`, `send_message`, `ack_delivered`, `ack_read`).

Persisted state is a `Store` of rows; id generation is modelled by a
counter producing fresh string ids.  Socket rooms are modelled as a list
of (room-name, connection-id) pairs; a broadcast is the list of
connection ids it reaches.
-/

namespace ChatApp

/-- A `User` row: id, unique email, display name (fields used by this core). -/
structure User where
  id : String
  email : String
  displayName : String
deriving DecidableEq, Repr

/-- A `Conversation` row: id, `isGroup` flag, optional title. -/
structure Conversation where
  id : String
  isGroup : Bool
  title : Option String
deriving DecidableEq, Repr

/-- A `Membership` row linking a user to a conversation. -/
structure Membership where
  id : String
  userId : String
  conversationId : String
deriving DecidableEq, Repr

/-- A `Message` row.  `deliveredTo` / `readBy` are the JSON array fields
(defaulting to `[]` at creation); `createdAt` is an abstract timestamp. -/
structure Message where
  id : String
  conversationId : String
  authorId : String
  kind : String
  text : Option String
  fileUrl : Option String
  createdAt : Nat
  deliveredTo : List String
  readBy : List String
deriving DecidableEq, Repr

/-- The relational store, plus a counter for fresh id generation. -/
structure Store where
  users : List User
  conversations : List Conversation
  memberships : List Membership
  messages : List Message
  nextId : Nat
deriving DecidableEq, Repr

/-! ### User search (`GET /users/search`) -/

/-- `needle` occurs as a contiguous sublist of `hay`
(JS `String.prototype.includes` on the char lists). -/
def listIncludes (needle : List Char) : List Char → Bool
  | [] => needle.isEmpty
  | c :: rest => needle.isPrefixOf (c :: rest) || listIncludes needle rest

/-- JS `hay.includes(needle)`. -/
def strIncludes (hay needle : String) : Bool :=
  listIncludes needle.data hay.data

/-- JS `s.toLowerCase()`, modelled as a per-character lowering. -/
def lowerStr (s : String) : String :=
  ⟨s.data.map Char.toLower⟩

/-- The projected record returned by user search (`{id, email, displayName}`). -/
structure UserHit where
  id : String
  email : String
  displayName : String
deriving DecidableEq, Repr

/-- `GET /users/search?q=`: lowercase the query; empty query returns `[]`
immediately; otherwise scan all users and keep those whose lowercased
email or display name includes the query. -/
def searchUsers (users : List User) (q0 : String) : List UserHit :=
  let q := lowerStr q0
  if q = "" then []
  else
    (users.filter (fun u =>
      strIncludes (lowerStr u.email) q || strIncludes (lowerStr u.displayName) q)).map
      (fun u => ⟨u.id, u.email, u.displayName⟩)

/-! ### Conversation resolver (`POST /conversations`) -/

/-- Accumulator pass for `dedupFirst`: keep the first occurrence of each
element, skipping elements already seen. -/
def dedupFirstAux (seen : List String) : List String → List String
  | [] => []
  | a :: l =>
    if seen.contains a then dedupFirstAux seen l
    else a :: dedupFirstAux (a :: seen) l

/-- First-occurrence deduplication, as JS `Array.from(new Set(l))`. -/
def dedupFirst (l : List String) : List String :=
  dedupFirstAux [] l

/-- All membership rows of a conversation (Prisma `include: memberships`). -/
def membershipsOf (s : Store) (cid : String) : List Membership :=
  s.memberships.filter (fun m => m.conversationId == cid)

/-- Some membership row links `uid` to conversation `cid`
(Prisma `memberships: { some: { userId } }`). -/
def hasMember (s : Store) (cid uid : String) : Bool :=
  s.memberships.any (fun m => m.conversationId == cid && m.userId == uid)

/-- The `findFirst` predicate: a non-group conversation in which both users
hold a membership. -/
def matchesDirect (s : Store) (u1 u2 : String) (c : Conversation) : Bool :=
  !c.isGroup && hasMember s c.id u1 && hasMember s c.id u2

/-- Prisma `conversation.findFirst` for the direct-chat reuse query. -/
def findFirstDirect (s : Store) (u1 u2 : String) : Option Conversation :=
  s.conversations.find? (matchesDirect s u1 u2)

/-- Fresh conversation id from the store's id counter. -/
def freshConvId (s : Store) : String := "c" ++ toString s.nextId

/-- Fresh membership rows created alongside a new conversation, one per
unique member id. -/
def freshMemberships (s : Store) (ids : List String) : List Membership :=
  ids.enum.map (fun p =>
    ⟨"m" ++ toString s.nextId ++ "x" ++ toString p.fst, p.snd, freshConvId s⟩)

/-- Prisma `conversation.create` with nested membership creation. -/
def createConvo (s : Store) (ids : List String) (isGroup : Bool)
    (title : Option String) : Conversation × List Membership × Store :=
  let convo : Conversation := ⟨freshConvId s, isGroup, title⟩
  let newMs := freshMemberships s ids
  (convo, newMs,
   { s with conversations := s.conversations ++ [convo],
            memberships := s.memberships ++ newMs,
            nextId := s.nextId + 1 })

/-- Response of `POST /conversations`: 400 `InvalidRequest`, or the
conversation together with its membership rows. -/
inductive ResolveResp where
  | invalidRequest
  | ok (conv : Conversation) (members : List Membership)
deriving DecidableEq, Repr

/-- `POST /conversations` (get-or-create).  Dedup the member set including
the requester; for a direct chat require exactly 2 unique members, try to
reuse an existing non-group conversation containing both (only if its
membership count is exactly 2), otherwise create a new conversation with
one membership per unique member. -/
def resolve (s : Store) (requesterId : String) (memberIds : List String)
    (isGroup : Bool) (title : Option String) : ResolveResp × Store :=
  let uniqueMemberIds := dedupFirst (requesterId :: memberIds)
  if isGroup then
    let r := createConvo s uniqueMemberIds isGroup title
    (.ok r.1 r.2.1, r.2.2)
  else if uniqueMemberIds.length ≠ 2 then
    (.invalidRequest, s)
  else
    let u1 := uniqueMemberIds.headD ""
    let u2 := (uniqueMemberIds.drop 1).headD ""
    match findFirstDirect s u1 u2 with
    | some existing =>
      if (membershipsOf s existing.id).length == 2 then
        (.ok existing (membershipsOf s existing.id), s)
      else
        let r := createConvo s uniqueMemberIds false title
        (.ok r.1 r.2.1, r.2.2)
    | none =>
      let r := createConvo s uniqueMemberIds false title
      (.ok r.1 r.2.1, r.2.2)

/-! ### Message history (`GET /messages`) -/

/-- The descending creation-time order used by
`orderBy: { createdAt: "desc" }`. -/
def byCreatedDesc (a b : Message) : Prop := b.createdAt ≤ a.createdAt

instance : DecidableRel byCreatedDesc :=
  fun a b => inferInstanceAs (Decidable (b.createdAt ≤ a.createdAt))

instance : IsTotal Message byCreatedDesc :=
  ⟨fun a b => (Nat.le_total b.createdAt a.createdAt).imp id id⟩

instance : IsTrans Message byCreatedDesc :=
  ⟨fun _ _ _ h1 h2 => Nat.le_trans h2 h1⟩

/-- `GET /messages` core: filter by conversation (and `id < before` when
given), order by `createdAt` descending, take `limit`, then reverse. -/
def history (s : Store) (cid : String) (before : Option String)
    (limit : Nat) : List Message :=
  let selected := s.messages.filter (fun m =>
    m.conversationId == cid &&
    (match before with
     | none => true
     | some b => decide (m.id < b)))
  ((List.insertionSort byCreatedDesc selected).take limit).reverse

/-- `GET /messages` endpoint: 400 when `cid` is missing, else the history
page with `limit` defaulting to 50. -/
def getMessages (s : Store) (cid : String) (before : Option String)
    (limit : Option Nat) : Except String (List Message) :=
  if cid = "" then .error "cid required"
  else .ok (history s cid before (limit.getD 50))

/-! ### Socket rooms and event handlers -/

/-- The Socket.IO room name for a conversation. -/
def roomKey (cid : String) : String := "cid:" ++ cid

/-- Connection ids currently joined to `room`
(`io.to(room)` recipient set). -/
def roomMembers (rooms : List (String × Nat)) (room : String) : List Nat :=
  (rooms.filter (fun p => p.fst == room)).map Prod.snd

/-- JS `x || null` on an optional string field: missing or empty becomes
null. -/
def orNull : Option String → Option String
  | some "" => none
  | none => none
  | some t => some t

/-- Fresh message id from the store's id counter. -/
def freshMsgId (s : Store) : String := "msg" ++ toString s.nextId

/-- A room-scoped broadcast of a created message. -/
structure MsgBroadcast where
  room : String
  recipients : List Nat
  message : Message
deriving DecidableEq, Repr

/-- `send_message` handler: drop when `cid` or `kind` is missing, else
persist a new message (empty `deliveredTo`/`readBy`) and broadcast
`message_created` to the full room. -/
def sendMessageHandler (rooms : List (String × Nat)) (s : Store)
    (uid cid kind : String) (text fileUrl : Option String) (now : Nat) :
    Store × Option MsgBroadcast :=
  if cid = "" || kind = "" then (s, none)
  else
    let msg : Message :=
      { id := freshMsgId s, conversationId := cid, authorId := uid,
        kind := kind, text := orNull text, fileUrl := orNull fileUrl,
        createdAt := now, deliveredTo := [], readBy := [] }
    ({ s with messages := s.messages ++ [msg], nextId := s.nextId + 1 },
     some ⟨roomKey cid, roomMembers rooms (roomKey cid), msg⟩)

/-- The `typing` event re-broadcast to the room, excluding the sender. -/
structure TypingEvent where
  cid : String
  userId : String
  isTyping : Bool
deriving DecidableEq, Repr

/-- `typing` handler: ignore when `cid` is missing, else broadcast
`{cid, userId, isTyping}` to the room minus the sender's connection
(`socket.to(room)`). -/
def typingHandler (rooms : List (String × Nat)) (senderConn : Nat)
    (uid cid : String) (isTyping : Bool) : Option (List Nat × TypingEvent) :=
  if cid = "" then none
  else
    some ((roomMembers rooms (roomKey cid)).filter (fun c => c != senderConn),
          ⟨cid, uid, isTyping⟩)

/-- Outcome of an acknowledgment handler: guard-dropped, crashed on the
unguarded access to a missing message, or the updated store with the new
acknowledgment set and broadcast recipients. -/
inductive AckOutcome where
  | dropped
  | crashed
  | ok (store : Store) (ackSet : List String) (recipients : List Nat)
deriving DecidableEq, Repr

/-- Append `uid` unless already present
(`if (!arr.includes(uid)) arr.push(uid)`). -/
def addIfAbsent (uid : String) (l : List String) : List String :=
  if l.contains uid then l else l ++ [uid]

/-- Prisma `message.update` writing `deliveredTo` of the message `msgId`. -/
def setDelivered (msgId : String) (v : List String) (msgs : List Message) :
    List Message :=
  msgs.map (fun m => if m.id == msgId then { m with deliveredTo := v } else m)

/-- Prisma `message.update` writing `readBy` of the message `msgId`. -/
def setRead (msgId : String) (v : List String) (msgs : List Message) :
    List Message :=
  msgs.map (fun m => if m.id == msgId then { m with readBy := v } else m)

/-- Prisma `message.findUnique({ where: { id } })`. -/
def findMessage (s : Store) (msgId : String) : Option Message :=
  s.messages.find? (fun m => m.id == msgId)

/-- `ack_delivered` handler: drop when `cid` or `msgId` is missing; fetch
the message — a missing record crashes (the source dereferences the null
result with no guard); else add `uid` to `deliveredTo` if absent, persist,
and broadcast `message_updated` to the room. -/
def ackDeliveredHandler (rooms : List (String × Nat)) (s : Store)
    (uid cid msgId : String) : AckOutcome :=
  if cid = "" || msgId = "" then .dropped
  else
    match findMessage s msgId with
    | none => .crashed
    | some m =>
      let deliveredTo := addIfAbsent uid m.deliveredTo
      .ok { s with messages := setDelivered msgId deliveredTo s.messages }
        deliveredTo (roomMembers rooms (roomKey cid))

/-- `ack_read` handler: identical to `ack_delivered` over `readBy`. -/
def ackReadHandler (rooms : List (String × Nat)) (s : Store)
    (uid cid msgId : String) : AckOutcome :=
  if cid = "" || msgId = "" then .dropped
  else
    match findMessage s msgId with
    | none => .crashed
    | some m =>
      let readBy := addIfAbsent uid m.readBy
      .ok { s with messages := setRead msgId readBy s.messages }
        readBy (roomMembers rooms (roomKey cid))

/-! ### Helper lemmas -/

theorem lowerStr_eq_empty_iff (q : String) : lowerStr q = "" ↔ q = "" := by
  cases q with
  | mk l =>
    simp only [lowerStr]
    constructor
    · intro h
      have hd : (l.map Char.toLower) = ([] : List Char) := congrArg String.data h
      have : l = [] := List.map_eq_nil_iff.mp hd
      simp [this]
    · intro h
      have : l = [] := congrArg String.data h
      simp [this]

/-! ### Claim theorems (first batch) -/

/-- **C4**: for a direct-chat request (`isGroup = false`) whose deduplicated
member set `{requesterId} ∪ memberIds` does not have size exactly 2, the
request fails with `InvalidRequest` (HTTP 400, "direct chat must have
exactly 2 members") and the store is unchanged: no conversation and no
membership is created. -/
theorem resolve_direct_bad_cardinality (s : Store) (r : String)
    (memberIds : List String) (title : Option String)
    (h : (dedupFirst (r :: memberIds)).length ≠ 2) :
    resolve s r memberIds false title = (.invalidRequest, s) := by
  simp [resolve, h]

theorem resolve_direct_bad_cardinality_witness :
    (dedupFirst ["a"]).length ≠ 2 ∧
    resolve ⟨[], [], [], [], 0⟩ "a" [] false none =
      (.invalidRequest, ⟨[], [], [], [], 0⟩) :=
  ⟨by decide,
   resolve_direct_bad_cardinality ⟨[], [], [], [], 0⟩ "a" [] none (by decide)⟩

/-- **C5**: acknowledging a message id absent from the store is fatal: with
non-empty `cid` and `msgId`, both `ack_delivered` and `ack_read` crash on
the unguarded access to the missing record (there is no `NotFound` guard in
the handler). -/
theorem ack_missing_message_fatal (rooms : List (String × Nat)) (s : Store)
    (uid cid msgId : String) (hcid : cid ≠ "") (hmsg : msgId ≠ "")
    (habs : findMessage s msgId = none) :
    ackDeliveredHandler rooms s uid cid msgId = .crashed ∧
    ackReadHandler rooms s uid cid msgId = .crashed := by
  constructor <;> simp [ackDeliveredHandler, ackReadHandler, hcid, hmsg, habs]

theorem ack_missing_message_fatal_witness :
    ("c1" : String) ≠ "" ∧ ("mZ" : String) ≠ "" ∧
    findMessage ⟨[], [], [], [], 0⟩ "mZ" = none ∧
    (ackDeliveredHandler [] ⟨[], [], [], [], 0⟩ "bob" "c1" "mZ" = .crashed ∧
     ackReadHandler [] ⟨[], [], [], [], 0⟩ "bob" "c1" "mZ" = .crashed) :=
  ⟨by decide, by decide, by decide,
   ack_missing_message_fatal [] ⟨[], [], [], [], 0⟩ "bob" "c1" "mZ"
     (by decide) (by decide) (by decide)⟩

/-- **C8**: a `typing` event with a non-empty conversation id broadcasts
`{cid, userId := sender, isTyping}` to exactly the connections in the
conversation's room other than the sender's own connection; a `typing`
event with a missing conversation id is ignored (no broadcast). -/
theorem typing_broadcast_spec (rooms : List (String × Nat)) (senderConn : Nat)
    (uid cid : String) (isTyping : Bool) (hcid : cid ≠ "") :
    (∃ recips, typingHandler rooms senderConn uid cid isTyping =
        some (recips, ⟨cid, uid, isTyping⟩) ∧
      ∀ c : Nat, c ∈ recips ↔ ((roomKey cid, c) ∈ rooms ∧ c ≠ senderConn)) ∧
    typingHandler rooms senderConn uid "" isTyping = none := by
  constructor
  · refine ⟨(roomMembers rooms (roomKey cid)).filter (fun c => c != senderConn),
      ?_, ?_⟩
    · simp [typingHandler, hcid]
    · intro c
      simp only [List.mem_filter, roomMembers, List.mem_map, bne_iff_ne,
        ne_eq, beq_iff_eq]
      constructor
      · rintro ⟨⟨⟨r0, c0⟩, ⟨ha, h1⟩, h2⟩, hne⟩
        subst h1; subst h2
        exact ⟨ha, hne⟩
      · rintro ⟨hmem, hne⟩
        exact ⟨⟨(roomKey cid, c), ⟨hmem, rfl⟩, rfl⟩, hne⟩
  · simp [typingHandler]

theorem typing_broadcast_spec_witness :
    ("c1" : String) ≠ "" ∧
    ((∃ recips, typingHandler [("cid:c1", 7), ("cid:c1", 8), ("cid:c2", 9)]
          7 "bob" "c1" true = some (recips, ⟨"c1", "bob", true⟩) ∧
        ∀ c : Nat, c ∈ recips ↔
          ((roomKey "c1", c) ∈ [("cid:c1", 7), ("cid:c1", 8), ("cid:c2", 9)] ∧
           c ≠ 7)) ∧
      typingHandler [("cid:c1", 7), ("cid:c1", 8), ("cid:c2", 9)]
        7 "bob" "" true = none) :=
  ⟨by decide,
   typing_broadcast_spec [("cid:c1", 7), ("cid:c1", 8), ("cid:c2", 9)]
     7 "bob" "c1" true (by decide)⟩

/-- **C9**: user search returns `[]` for the empty query (independent of the
stored users, so the full scan is never consulted), and for a non-empty
query returns exactly the users whose email or display name contains the
query as a case-insensitive substring, projected to
`{id, email, displayName}`. -/
theorem searchUsers_spec (users : List User) (q : String) :
    searchUsers users "" = [] ∧
    (q ≠ "" →
      ∀ hit : UserHit, hit ∈ searchUsers users q ↔
        ∃ u ∈ users,
          (strIncludes (lowerStr u.email) (lowerStr q) = true ∨
           strIncludes (lowerStr u.displayName) (lowerStr q) = true) ∧
          hit = ⟨u.id, u.email, u.displayName⟩) := by
  constructor
  · rfl
  · intro hq hit
    have hq' : lowerStr q ≠ "" := fun h => hq ((lowerStr_eq_empty_iff q).1 h)
    simp only [searchUsers, if_neg hq', List.mem_map, List.mem_filter,
      Bool.or_eq_true]
    constructor
    · rintro ⟨u, ⟨hu, hpred⟩, rfl⟩
      exact ⟨u, hu, hpred, rfl⟩
    · rintro ⟨u, hu, hpred, rfl⟩
      exact ⟨u, ⟨hu, hpred⟩, rfl⟩

theorem searchUsers_spec_witness :
    ("aL" : String) ≠ "" ∧
    (searchUsers [⟨"u1", "Al@X.com", "Alice"⟩, ⟨"u2", "b@y.com", "Bob"⟩]
        "" = [] ∧
      ∀ hit : UserHit,
        hit ∈ searchUsers [⟨"u1", "Al@X.com", "Alice"⟩, ⟨"u2", "b@y.com", "Bob"⟩]
          "aL" ↔
        ∃ u ∈ [User.mk "u1" "Al@X.com" "Alice", User.mk "u2" "b@y.com" "Bob"],
          (strIncludes (lowerStr u.email) (lowerStr "aL") = true ∨
           strIncludes (lowerStr u.displayName) (lowerStr "aL") = true) ∧
          hit = ⟨u.id, u.email, u.displayName⟩) :=
  ⟨by decide,
   (searchUsers_spec [⟨"u1", "Al@X.com", "Alice"⟩, ⟨"u2", "b@y.com", "Bob"⟩]
       "aL").1,
   (searchUsers_spec [⟨"u1", "Al@X.com", "Alice"⟩, ⟨"u2", "b@y.com", "Bob"⟩]
       "aL").2 (by decide)⟩

/-- **C6**: a `send_message` event with missing conversation id or kind is
dropped (store unchanged, no broadcast); otherwise exactly one new message
with empty `deliveredTo` and `readBy` is appended, authored by the sender
in the given conversation, and it is broadcast to every connection in the
conversation's room — the recipient set is exactly the room's connections,
so a sender connection joined to the room is included. -/
theorem sendMessage_spec (rooms : List (String × Nat)) (s : Store)
    (uid cid kind : String) (text fileUrl : Option String) (now : Nat) :
    (cid = "" ∨ kind = "" →
      sendMessageHandler rooms s uid cid kind text fileUrl now = (s, none)) ∧
    (cid ≠ "" → kind ≠ "" →
      ∃ msg : Message,
        sendMessageHandler rooms s uid cid kind text fileUrl now =
          ({ s with messages := s.messages ++ [msg], nextId := s.nextId + 1 },
           some ⟨roomKey cid, roomMembers rooms (roomKey cid), msg⟩) ∧
        msg.conversationId = cid ∧ msg.authorId = uid ∧ msg.kind = kind ∧
        msg.deliveredTo = [] ∧ msg.readBy = [] ∧
        (∀ c : Nat, c ∈ roomMembers rooms (roomKey cid) ↔
          (roomKey cid, c) ∈ rooms)) := by
  constructor
  · rintro (h | h) <;> simp [sendMessageHandler, h]
  · intro hcid hkind
    refine ⟨{ id := freshMsgId s, conversationId := cid, authorId := uid,
              kind := kind, text := orNull text, fileUrl := orNull fileUrl,
              createdAt := now, deliveredTo := [], readBy := [] },
      ?_, rfl, rfl, rfl, rfl, rfl, ?_⟩
    · simp [sendMessageHandler, hcid, hkind]
    · intro c
      simp only [roomMembers, List.mem_map, List.mem_filter, beq_iff_eq]
      constructor
      · rintro ⟨⟨r0, c0⟩, ⟨ha, h1⟩, h2⟩
        subst h1; subst h2; exact ha
      · intro h; exact ⟨(roomKey cid, c), ⟨h, rfl⟩, rfl⟩

theorem sendMessage_spec_witness :
    (sendMessageHandler [("cid:c1", 7)] ⟨[], [], [], [], 0⟩
        "alice" "" "text" none none 5 = (⟨[], [], [], [], 0⟩, none)) ∧
    (∃ msg : Message,
      sendMessageHandler [("cid:c1", 7)] ⟨[], [], [], [], 0⟩
          "alice" "c1" "text" (some "hi") none 5 =
        ({ Store.mk [] [] [] [] 0 with
            messages := [] ++ [msg], nextId := 0 + 1 },
         some ⟨roomKey "c1", roomMembers [("cid:c1", 7)] (roomKey "c1"), msg⟩) ∧
      msg.conversationId = "c1" ∧ msg.authorId = "alice" ∧
      msg.kind = "text" ∧ msg.deliveredTo = [] ∧ msg.readBy = [] ∧
      (∀ c : Nat, c ∈ roomMembers [("cid:c1", 7)] (roomKey "c1") ↔
        (roomKey "c1", c) ∈ [("cid:c1", 7)])) :=
  ⟨(sendMessage_spec [("cid:c1", 7)] ⟨[], [], [], [], 0⟩
      "alice" "" "text" none none 5).1 (Or.inl rfl),
   (sendMessage_spec [("cid:c1", 7)] ⟨[], [], [], [], 0⟩
      "alice" "c1" "text" (some "hi") none 5).2 (by decide) (by decide)⟩

/-- **C10**: `send_message` performs no membership authorization — even when
the sender holds no membership row for the conversation, a non-empty
conversation id and kind make the handler persist a message authored by
the sender in that conversation and broadcast it to the room. -/
theorem sendMessage_no_membership_check (rooms : List (String × Nat))
    (s : Store) (uid cid kind : String) (text fileUrl : Option String)
    (now : Nat) (hcid : cid ≠ "") (hkind : kind ≠ "")
    (_hnomem : ∀ m ∈ s.memberships,
      ¬(m.userId = uid ∧ m.conversationId = cid)) :
    ∃ msg : Message,
      sendMessageHandler rooms s uid cid kind text fileUrl now =
        ({ s with messages := s.messages ++ [msg], nextId := s.nextId + 1 },
         some ⟨roomKey cid, roomMembers rooms (roomKey cid), msg⟩) ∧
      msg.conversationId = cid ∧ msg.authorId = uid := by
  refine ⟨{ id := freshMsgId s, conversationId := cid, authorId := uid,
            kind := kind, text := orNull text, fileUrl := orNull fileUrl,
            createdAt := now, deliveredTo := [], readBy := [] },
    ?_, rfl, rfl⟩
  simp [sendMessageHandler, hcid, hkind]

theorem sendMessage_no_membership_check_witness :
    ("c1" : String) ≠ "" ∧ ("text" : String) ≠ "" ∧
    (∀ m ∈ (Store.mk [] [] [] [] 0).memberships,
      ¬(m.userId = "alice" ∧ m.conversationId = "c1")) ∧
    (∃ msg : Message,
      sendMessageHandler [("cid:c1", 7)] ⟨[], [], [], [], 0⟩
          "alice" "c1" "text" (some "hi") none 5 =
        ({ Store.mk [] [] [] [] 0 with
            messages := [] ++ [msg], nextId := 0 + 1 },
         some ⟨roomKey "c1", roomMembers [("cid:c1", 7)] (roomKey "c1"), msg⟩) ∧
      msg.conversationId = "c1" ∧ msg.authorId = "alice") :=
  ⟨by decide, by decide, by intro m hm; exact absurd hm (List.not_mem_nil m),
   sendMessage_no_membership_check [("cid:c1", 7)] ⟨[], [], [], [], 0⟩
     "alice" "c1" "text" (some "hi") none 5 (by decide) (by decide)
     (by intro m hm; exact absurd hm (List.not_mem_nil m))⟩

/-- **C3**: a history page holds at most `limit` messages (default 50 when
no limit is supplied), each belonging to the requested conversation and,
when `before` is given, with id strictly smaller than `before`; the page
is in ascending `createdAt` order, the reversal of the descending
most-recent-`limit` selection. -/
theorem history_spec (s : Store) (cid : String) (before : Option String)
    (limit : Nat) :
    (history s cid before limit).length ≤ limit ∧
    (∀ m ∈ history s cid before limit,
       m.conversationId = cid ∧ ∀ b, before = some b → m.id < b) ∧
    (history s cid before limit).Pairwise
      (fun a b => a.createdAt ≤ b.createdAt) ∧
    (cid ≠ "" → getMessages s cid before none = .ok (history s cid before 50)) := by
  refine ⟨?_, ?_, ?_, ?_⟩
  · simp only [history, List.length_reverse, List.length_take]
    exact Nat.min_le_left _ _
  · intro m hm
    simp only [history, List.mem_reverse] at hm
    have h2 := List.take_subset _ _ hm
    have h3 := (List.perm_insertionSort byCreatedDesc _).mem_iff.1 h2
    have h4 := (List.mem_filter.1 h3).2
    rw [Bool.and_eq_true] at h4
    refine ⟨by simpa using h4.1, ?_⟩
    intro b hb
    rw [hb] at h4
    exact of_decide_eq_true h4.2
  · simp only [history]
    rw [List.pairwise_reverse]
    exact ((List.sorted_insertionSort byCreatedDesc _).sublist
      (List.take_sublist _ _))
  · intro h
    simp [getMessages, h]

theorem history_spec_witness :
    ((history ⟨[], [], [],
        [⟨"m1", "c1", "a", "text", some "x", none, 5, [], []⟩,
         ⟨"m2", "c1", "a", "text", some "y", none, 3, [], []⟩,
         ⟨"m3", "c1", "a", "text", some "z", none, 9, [], []⟩,
         ⟨"m4", "c2", "a", "text", some "w", none, 1, [], []⟩], 0⟩
        "c1" (some "m3") 2).length ≤ 2) ∧
    (getMessages ⟨[], [], [],
        [⟨"m1", "c1", "a", "text", some "x", none, 5, [], []⟩,
         ⟨"m2", "c1", "a", "text", some "y", none, 3, [], []⟩,
         ⟨"m3", "c1", "a", "text", some "z", none, 9, [], []⟩,
         ⟨"m4", "c2", "a", "text", some "w", none, 1, [], []⟩], 0⟩
        "c1" (some "m3") none =
      .ok (history ⟨[], [], [],
        [⟨"m1", "c1", "a", "text", some "x", none, 5, [], []⟩,
         ⟨"m2", "c1", "a", "text", some "y", none, 3, [], []⟩,
         ⟨"m3", "c1", "a", "text", some "z", none, 9, [], []⟩,
         ⟨"m4", "c2", "a", "text", some "w", none, 1, [], []⟩], 0⟩
        "c1" (some "m3") 50)) :=
  ⟨(history_spec ⟨[], [], [],
      [⟨"m1", "c1", "a", "text", some "x", none, 5, [], []⟩,
       ⟨"m2", "c1", "a", "text", some "y", none, 3, [], []⟩,
       ⟨"m3", "c1", "a", "text", some "z", none, 9, [], []⟩,
       ⟨"m4", "c2", "a", "text", some "w", none, 1, [], []⟩], 0⟩
      "c1" (some "m3") 2).1,
   (history_spec ⟨[], [], [],
      [⟨"m1", "c1", "a", "text", some "x", none, 5, [], []⟩,
       ⟨"m2", "c1", "a", "text", some "y", none, 3, [], []⟩,
       ⟨"m3", "c1", "a", "text", some "z", none, 9, [], []⟩,
       ⟨"m4", "c2", "a", "text", some "w", none, 1, [], []⟩], 0⟩
      "c1" (some "m3") 2).2.2.2 (by decide)⟩

/-! ### Acknowledgment helper lemmas -/

theorem addIfAbsent_subset (uid : String) (l : List String) :
    l ⊆ addIfAbsent uid l := by
  unfold addIfAbsent
  split
  · exact fun x hx => hx
  · exact fun x hx => List.mem_append_left _ hx

theorem mem_addIfAbsent (uid : String) (l : List String) :
    uid ∈ addIfAbsent uid l := by
  unfold addIfAbsent
  split
  · next h => simpa using h
  · exact List.mem_append_right _ (List.mem_singleton_self uid)

theorem addIfAbsent_idem_of_mem (uid : String) (l : List String)
    (h : uid ∈ l) : addIfAbsent uid l = l := by
  simp [addIfAbsent, h]

theorem find?_map_id_preserving {f : Message → Message}
    (hid : ∀ x, (f x).id = x.id) (msgId : String) (msgs : List Message) :
    (msgs.map f).find? (fun x => x.id == msgId) =
      (msgs.find? (fun x => x.id == msgId)).map f := by
  rw [List.find?_map]
  have hp : ((fun x : Message => x.id == msgId) ∘ f) =
      (fun x : Message => x.id == msgId) := by
    funext x
    simp [Function.comp, hid]
  rw [hp]

theorem findMessage_setDelivered (s : Store) (msgId : String)
    (v : List String) (m : Message) (hfind : findMessage s msgId = some m) :
    findMessage { s with messages := setDelivered msgId v s.messages } msgId =
      some { m with deliveredTo := v } := by
  have hid : ∀ x : Message,
      ((fun x => if x.id == msgId then { x with deliveredTo := v } else x) x).id
        = x.id := by
    intro x
    by_cases h : x.id == msgId <;> simp [h]
  have hpm := List.find?_some hfind
  unfold findMessage setDelivered at *
  rw [find?_map_id_preserving hid, hfind]
  have hred : (some m).map
      (fun x => if x.id == msgId then { x with deliveredTo := v } else x) =
      some (if m.id == msgId then { m with deliveredTo := v } else m) := rfl
  rw [hred, if_pos hpm]

theorem findMessage_setRead (s : Store) (msgId : String)
    (v : List String) (m : Message) (hfind : findMessage s msgId = some m) :
    findMessage { s with messages := setRead msgId v s.messages } msgId =
      some { m with readBy := v } := by
  have hid : ∀ x : Message,
      ((fun x => if x.id == msgId then { x with readBy := v } else x) x).id
        = x.id := by
    intro x
    by_cases h : x.id == msgId <;> simp [h]
  have hpm := List.find?_some hfind
  unfold findMessage setRead at *
  rw [find?_map_id_preserving hid, hfind]
  have hred : (some m).map
      (fun x => if x.id == msgId then { x with readBy := v } else x) =
      some (if m.id == msgId then { m with readBy := v } else m) := rfl
  rw [hred, if_pos hpm]

theorem setDelivered_idem (msgId : String) (v : List String)
    (msgs : List Message) :
    setDelivered msgId v (setDelivered msgId v msgs) =
      setDelivered msgId v msgs := by
  unfold setDelivered
  rw [List.map_map]
  apply List.map_congr_left
  intro x _
  by_cases h : x.id == msgId <;> simp [Function.comp, h]

theorem setRead_idem (msgId : String) (v : List String)
    (msgs : List Message) :
    setRead msgId v (setRead msgId v msgs) = setRead msgId v msgs := by
  unfold setRead
  rw [List.map_map]
  apply List.map_congr_left
  intro x _
  by_cases h : x.id == msgId <;> simp [Function.comp, h]

/-- **C2**: for an existing message, acknowledgment grows the set
monotonically and is idempotent: `ack_delivered` stores
`addIfAbsent uid deliveredTo`, a superset of the prior `deliveredTo`
containing `uid`, and a second identical acknowledgment leaves both the
set and the store unchanged; the same holds for `ack_read` over `readBy`. -/
theorem ack_monotone_idempotent (rooms : List (String × Nat)) (s : Store)
    (uid cid msgId : String) (m : Message)
    (hcid : cid ≠ "") (hmsg : msgId ≠ "")
    (hfind : findMessage s msgId = some m) :
    (∃ s1,
      ackDeliveredHandler rooms s uid cid msgId =
        .ok s1 (addIfAbsent uid m.deliveredTo)
          (roomMembers rooms (roomKey cid)) ∧
      findMessage s1 msgId =
        some { m with deliveredTo := addIfAbsent uid m.deliveredTo } ∧
      m.deliveredTo ⊆ addIfAbsent uid m.deliveredTo ∧
      uid ∈ addIfAbsent uid m.deliveredTo ∧
      ackDeliveredHandler rooms s1 uid cid msgId =
        .ok s1 (addIfAbsent uid m.deliveredTo)
          (roomMembers rooms (roomKey cid))) ∧
    (∃ s1,
      ackReadHandler rooms s uid cid msgId =
        .ok s1 (addIfAbsent uid m.readBy)
          (roomMembers rooms (roomKey cid)) ∧
      findMessage s1 msgId =
        some { m with readBy := addIfAbsent uid m.readBy } ∧
      m.readBy ⊆ addIfAbsent uid m.readBy ∧
      uid ∈ addIfAbsent uid m.readBy ∧
      ackReadHandler rooms s1 uid cid msgId =
        .ok s1 (addIfAbsent uid m.readBy)
          (roomMembers rooms (roomKey cid))) := by
  constructor
  · refine ⟨{ s with messages := setDelivered msgId (addIfAbsent uid m.deliveredTo) s.messages },
      ?_, findMessage_setDelivered s msgId _ m hfind,
      addIfAbsent_subset _ _, mem_addIfAbsent _ _, ?_⟩
    · simp [ackDeliveredHandler, hcid, hmsg, hfind]
    · have hf2 := findMessage_setDelivered s msgId
        (addIfAbsent uid m.deliveredTo) m hfind
      have hidem : addIfAbsent uid (addIfAbsent uid m.deliveredTo) =
          addIfAbsent uid m.deliveredTo :=
        addIfAbsent_idem_of_mem _ _ (mem_addIfAbsent _ _)
      simp [ackDeliveredHandler, hcid, hmsg, hf2, hidem, setDelivered_idem]
  · refine ⟨{ s with messages := setRead msgId (addIfAbsent uid m.readBy) s.messages },
      ?_, findMessage_setRead s msgId _ m hfind,
      addIfAbsent_subset _ _, mem_addIfAbsent _ _, ?_⟩
    · simp [ackReadHandler, hcid, hmsg, hfind]
    · have hf2 := findMessage_setRead s msgId
        (addIfAbsent uid m.readBy) m hfind
      have hidem : addIfAbsent uid (addIfAbsent uid m.readBy) =
          addIfAbsent uid m.readBy :=
        addIfAbsent_idem_of_mem _ _ (mem_addIfAbsent _ _)
      simp [ackReadHandler, hcid, hmsg, hf2, hidem, setRead_idem]

theorem ack_monotone_idempotent_witness :
    ("c1" : String) ≠ "" ∧ ("m1" : String) ≠ "" ∧
    findMessage ⟨[], [], [],
        [⟨"m1", "c1", "a", "text", some "x", none, 5, ["a"], []⟩], 0⟩ "m1" =
      some ⟨"m1", "c1", "a", "text", some "x", none, 5, ["a"], []⟩ ∧
    (∃ s1,
      ackDeliveredHandler [("cid:c1", 7)]
          ⟨[], [], [],
            [⟨"m1", "c1", "a", "text", some "x", none, 5, ["a"], []⟩], 0⟩
          "bob" "c1" "m1" =
        .ok s1 (addIfAbsent "bob" ["a"])
          (roomMembers [("cid:c1", 7)] (roomKey "c1")) ∧
      findMessage s1 "m1" =
        some ⟨"m1", "c1", "a", "text", some "x", none, 5,
          addIfAbsent "bob" ["a"], []⟩ ∧
      (["a"] : List String) ⊆ addIfAbsent "bob" ["a"] ∧
      "bob" ∈ addIfAbsent "bob" ["a"] ∧
      ackDeliveredHandler [("cid:c1", 7)] s1 "bob" "c1" "m1" =
        .ok s1 (addIfAbsent "bob" ["a"])
          (roomMembers [("cid:c1", 7)] (roomKey "c1"))) :=
  ⟨by decide, by decide, by decide,
   (ack_monotone_idempotent [("cid:c1", 7)]
      ⟨[], [], [], [⟨"m1", "c1", "a", "text", some "x", none, 5, ["a"], []⟩], 0⟩
      "bob" "c1" "m1" ⟨"m1", "c1", "a", "text", some "x", none, 5, ["a"], []⟩
      (by decide) (by decide) (by decide)).1⟩

/-- **C7**: acknowledgment is frame-preserving: for an existing message,
`ack_delivered` leaves users, conversations, memberships and the id
counter untouched, keeps the message list's length, preserves every field
except `deliveredTo` of every message (position by position), and leaves
every message whose id differs from the acknowledged one entirely
unchanged; symmetrically `ack_read` touches only `readBy`. -/
theorem ack_frame_preservation (rooms : List (String × Nat)) (s : Store)
    (uid cid msgId : String) (m : Message)
    (hcid : cid ≠ "") (hmsg : msgId ≠ "")
    (hfind : findMessage s msgId = some m) :
    (∃ s1,
      ackDeliveredHandler rooms s uid cid msgId =
        .ok s1 (addIfAbsent uid m.deliveredTo)
          (roomMembers rooms (roomKey cid)) ∧
      s1.users = s.users ∧ s1.conversations = s.conversations ∧
      s1.memberships = s.memberships ∧ s1.nextId = s.nextId ∧
      s1.messages.length = s.messages.length ∧
      (∀ (i : Nat) (x : Message), s.messages[i]? = some x →
        ∃ y : Message, s1.messages[i]? = some y ∧
          y.id = x.id ∧ y.conversationId = x.conversationId ∧
          y.authorId = x.authorId ∧ y.kind = x.kind ∧ y.text = x.text ∧
          y.fileUrl = x.fileUrl ∧ y.createdAt = x.createdAt ∧
          y.readBy = x.readBy ∧ (x.id ≠ msgId → y = x))) ∧
    (∃ s1,
      ackReadHandler rooms s uid cid msgId =
        .ok s1 (addIfAbsent uid m.readBy)
          (roomMembers rooms (roomKey cid)) ∧
      s1.users = s.users ∧ s1.conversations = s.conversations ∧
      s1.memberships = s.memberships ∧ s1.nextId = s.nextId ∧
      s1.messages.length = s.messages.length ∧
      (∀ (i : Nat) (x : Message), s.messages[i]? = some x →
        ∃ y : Message, s1.messages[i]? = some y ∧
          y.id = x.id ∧ y.conversationId = x.conversationId ∧
          y.authorId = x.authorId ∧ y.kind = x.kind ∧ y.text = x.text ∧
          y.fileUrl = x.fileUrl ∧ y.createdAt = x.createdAt ∧
          y.deliveredTo = x.deliveredTo ∧ (x.id ≠ msgId → y = x))) := by
  constructor
  · refine ⟨{ s with messages := setDelivered msgId (addIfAbsent uid m.deliveredTo) s.messages },
      ?_, rfl, rfl, rfl, rfl, by simp [setDelivered], ?_⟩
    · simp [ackDeliveredHandler, hcid, hmsg, hfind]
    · intro i x hx
      refine ⟨(fun x0 => if x0.id == msgId then
          { x0 with deliveredTo := addIfAbsent uid m.deliveredTo }
        else x0) x, ?_, ?_⟩
      · simp [setDelivered, List.getElem?_map, hx]
      · by_cases h : x.id == msgId
        · have hxid : x.id = msgId := by simpa using h
          refine ⟨by simp [h], by simp [h], by simp [h], by simp [h],
            by simp [h], by simp [h], by simp [h], by simp [h], ?_⟩
          intro hne
          exact absurd hxid hne
        · simp [h]
  · refine ⟨{ s with messages := setRead msgId (addIfAbsent uid m.readBy) s.messages },
      ?_, rfl, rfl, rfl, rfl, by simp [setRead], ?_⟩
    · simp [ackReadHandler, hcid, hmsg, hfind]
    · intro i x hx
      refine ⟨(fun x0 => if x0.id == msgId then
          { x0 with readBy := addIfAbsent uid m.readBy }
        else x0) x, ?_, ?_⟩
      · simp [setRead, List.getElem?_map, hx]
      · by_cases h : x.id == msgId
        · have hxid : x.id = msgId := by simpa using h
          refine ⟨by simp [h], by simp [h], by simp [h], by simp [h],
            by simp [h], by simp [h], by simp [h], by simp [h], ?_⟩
          intro hne
          exact absurd hxid hne
        · simp [h]

theorem ack_frame_preservation_witness :
    ("c1" : String) ≠ "" ∧ ("m1" : String) ≠ "" ∧
    findMessage ⟨[], [], [],
        [⟨"m1", "c1", "a", "text", some "x", none, 5, [], []⟩,
         ⟨"m2", "c1", "b", "file", none, some "u", 6, ["a"], ["a"]⟩], 0⟩
        "m1" =
      some ⟨"m1", "c1", "a", "text", some "x", none, 5, [], []⟩ ∧
    (∃ s1,
      ackDeliveredHandler [("cid:c1", 7)]
          ⟨[], [], [],
            [⟨"m1", "c1", "a", "text", some "x", none, 5, [], []⟩,
             ⟨"m2", "c1", "b", "file", none, some "u", 6, ["a"], ["a"]⟩], 0⟩
          "bob" "c1" "m1" =
        .ok s1 (addIfAbsent "bob" [])
          (roomMembers [("cid:c1", 7)] (roomKey "c1")) ∧
      s1.users = [] ∧ s1.conversations = [] ∧
      s1.memberships = [] ∧ s1.nextId = 0 ∧
      s1.messages.length =
        ([⟨"m1", "c1", "a", "text", some "x", none, 5, [], []⟩,
          ⟨"m2", "c1", "b", "file", none, some "u", 6, ["a"], ["a"]⟩] :
            List Message).length ∧
      (∀ (i : Nat) (x : Message),
        ([⟨"m1", "c1", "a", "text", some "x", none, 5, [], []⟩,
          ⟨"m2", "c1", "b", "file", none, some "u", 6, ["a"], ["a"]⟩] :
            List Message)[i]? = some x →
        ∃ y : Message, s1.messages[i]? = some y ∧
          y.id = x.id ∧ y.conversationId = x.conversationId ∧
          y.authorId = x.authorId ∧ y.kind = x.kind ∧ y.text = x.text ∧
          y.fileUrl = x.fileUrl ∧ y.createdAt = x.createdAt ∧
          y.readBy = x.readBy ∧ (x.id ≠ "m1" → y = x))) :=
  ⟨by decide, by decide, by decide,
   (ack_frame_preservation [("cid:c1", 7)]
      ⟨[], [], [],
        [⟨"m1", "c1", "a", "text", some "x", none, 5, [], []⟩,
         ⟨"m2", "c1", "b", "file", none, some "u", 6, ["a"], ["a"]⟩], 0⟩
      "bob" "c1" "m1" ⟨"m1", "c1", "a", "text", some "x", none, 5, [], []⟩
      (by decide) (by decide) (by decide)).1⟩

/-! ### Resolver helper lemmas -/

theorem dedupFirst_pair {u1 u2 : String} (h : u1 ≠ u2) :
    dedupFirst [u1, u2] = [u1, u2] := by
  simp [dedupFirst, dedupFirstAux, Ne.symm h]

theorem matchesDirect_symm (s : Store) (u1 u2 : String) (c : Conversation) :
    matchesDirect s u1 u2 c = matchesDirect s u2 u1 c := by
  unfold matchesDirect
  rw [Bool.and_assoc, Bool.and_comm (hasMember s c.id u1), ← Bool.and_assoc]

theorem findFirstDirect_symm (s : Store) (u1 u2 : String) :
    findFirstDirect s u1 u2 = findFirstDirect s u2 u1 := by
  unfold findFirstDirect
  congr 1
  funext c
  exact matchesDirect_symm s u1 u2 c

/-- Direct-chat unfolding of `resolve` for a distinct pair when the reuse
query finds a candidate. -/
theorem resolve_direct_found (s : Store) (u1 u2 : String)
    (title : Option String) (h : u1 ≠ u2) (c0 : Conversation)
    (hf : findFirstDirect s u1 u2 = some c0) :
    resolve s u1 [u2] false title =
      (if (membershipsOf s c0.id).length == 2 then
        (.ok c0 (membershipsOf s c0.id), s)
      else
        (.ok (createConvo s [u1, u2] false title).1
           (createConvo s [u1, u2] false title).2.1,
         (createConvo s [u1, u2] false title).2.2)) := by
  unfold resolve
  rw [show (u1 :: [u2]) = [u1, u2] from rfl, dedupFirst_pair h]
  simp only [List.length_cons, List.length_nil, List.headD_cons,
    List.drop_succ_cons, List.drop_zero, Bool.false_eq_true, if_false]
  rw [if_neg (by norm_num)]
  rw [hf]

/-- Direct-chat unfolding of `resolve` for a distinct pair when the reuse
query finds nothing. -/
theorem resolve_direct_notfound (s : Store) (u1 u2 : String)
    (title : Option String) (h : u1 ≠ u2)
    (hf : findFirstDirect s u1 u2 = none) :
    resolve s u1 [u2] false title =
      (.ok (createConvo s [u1, u2] false title).1
         (createConvo s [u1, u2] false title).2.1,
       (createConvo s [u1, u2] false title).2.2) := by
  unfold resolve
  rw [show (u1 :: [u2]) = [u1, u2] from rfl, dedupFirst_pair h]
  simp only [List.length_cons, List.length_nil, List.headD_cons,
    List.drop_succ_cons, List.drop_zero, Bool.false_eq_true, if_false]
  rw [if_neg (by norm_num)]
  rw [hf]

theorem membershipsOf_after_create (s : Store) (u1 u2 : String)
    (title : Option String)
    (hfm : ∀ mrow ∈ s.memberships, mrow.conversationId ≠ freshConvId s) :
    membershipsOf (createConvo s [u1, u2] false title).2.2 (freshConvId s) =
      freshMemberships s [u1, u2] := by
  have hnil : s.memberships.filter
      (fun mr => mr.conversationId == freshConvId s) = [] :=
    List.filter_eq_nil_iff.2 (fun a ha => by simpa using hfm a ha)
  show (s.memberships ++ freshMemberships s [u1, u2]).filter _ = _
  rw [List.filter_append, hnil, List.nil_append]
  simp [freshMemberships, List.enum, List.enumFrom]

theorem matchesDirect_create_self (s : Store) (u1 u2 : String)
    (title : Option String) :
    matchesDirect (createConvo s [u1, u2] false title).2.2 u1 u2
      ⟨freshConvId s, false, title⟩ = true := by
  simp [matchesDirect, hasMember, createConvo, freshMemberships,
    List.any_append, List.enum, List.enumFrom]

theorem matchesDirect_create_old (s : Store) (u1 u2 : String)
    (title : Option String) (c' : Conversation)
    (hne : c'.id ≠ freshConvId s) :
    matchesDirect (createConvo s [u1, u2] false title).2.2 u1 u2 c' =
      matchesDirect s u1 u2 c' := by
  have hfr : ∀ u : String, (freshMemberships s [u1, u2]).any
      (fun mr => mr.conversationId == c'.id && mr.userId == u) = false := by
    intro u
    simp [freshMemberships, List.enum, List.enumFrom, Ne.symm hne]
  show (!c'.isGroup &&
      (s.memberships ++ freshMemberships s [u1, u2]).any _ &&
      (s.memberships ++ freshMemberships s [u1, u2]).any _) = _
  rw [List.any_append, List.any_append, hfr, hfr]
  simp [matchesDirect, hasMember]

theorem findFirstDirect_after_create (s : Store) (u1 u2 : String)
    (title : Option String)
    (hnone : ∀ c' ∈ s.conversations, ¬matchesDirect s u1 u2 c' = true)
    (hfc : ∀ c ∈ s.conversations, c.id ≠ freshConvId s) :
    findFirstDirect (createConvo s [u1, u2] false title).2.2 u1 u2 =
      some ⟨freshConvId s, false, title⟩ := by
  have h1 : s.conversations.find?
      (matchesDirect (createConvo s [u1, u2] false title).2.2 u1 u2) = none := by
    rw [List.find?_eq_none]
    intro c' hc'
    rw [matchesDirect_create_old s u1 u2 title c' (hfc c' hc')]
    exact hnone c' hc'
  have h2 : ([⟨freshConvId s, false, title⟩] : List Conversation).find?
      (matchesDirect (createConvo s [u1, u2] false title).2.2 u1 u2) =
      some ⟨freshConvId s, false, title⟩ :=
    List.find?_cons_of_pos _ (matchesDirect_create_self s u1 u2 title)
  show (s.conversations ++ ([⟨freshConvId s, false, title⟩] : List Conversation)).find? _ = _
  rw [List.find?_append, h1, h2]
  rfl

/-- **C1**: direct-chat get-or-create.  Guard: when the candidate found by
`findFirst` does not have exactly 2 membership rows it is not reused and a
new conversation is created.  Idempotence: when every existing non-group
conversation containing both (distinct) users has exactly 2 membership
rows, and the fresh id does not collide with existing rows, a first
`resolve` call yields a conversation that a second call — with the pair in
either order — returns unchanged: same conversation, same membership rows,
and an identical store (no new conversation row, no new membership rows). -/
theorem resolve_direct_get_or_create (s : Store) (u1 u2 : String)
    (title : Option String) (h12 : u1 ≠ u2) :
    (∀ c0, findFirstDirect s u1 u2 = some c0 →
      (membershipsOf s c0.id).length ≠ 2 →
      resolve s u1 [u2] false title =
        (.ok (createConvo s [u1, u2] false title).1
           (createConvo s [u1, u2] false title).2.1,
         (createConvo s [u1, u2] false title).2.2)) ∧
    ((∀ c ∈ s.conversations, matchesDirect s u1 u2 c = true →
        (membershipsOf s c.id).length = 2) →
      (∀ c ∈ s.conversations, c.id ≠ freshConvId s) →
      (∀ mrow ∈ s.memberships, mrow.conversationId ≠ freshConvId s) →
      ∃ c ms s1,
        resolve s u1 [u2] false title = (.ok c ms, s1) ∧
        resolve s1 u1 [u2] false title = (.ok c ms, s1) ∧
        resolve s1 u2 [u1] false title = (.ok c ms, s1)) := by
  constructor
  · intro c0 hf hlen
    rw [resolve_direct_found s u1 u2 title h12 c0 hf,
      if_neg (by simpa using hlen)]
  · intro hwf hfc hfm
    cases hf : findFirstDirect s u1 u2 with
    | some c =>
      have hc_mem : c ∈ s.conversations := List.mem_of_find?_eq_some hf
      have hc_match : matchesDirect s u1 u2 c = true := List.find?_some hf
      have hcond : ((membershipsOf s c.id).length == 2) = true := by
        simpa using hwf c hc_mem hc_match
      have hf' : findFirstDirect s u2 u1 = some c :=
        (findFirstDirect_symm s u2 u1).trans hf
      refine ⟨c, membershipsOf s c.id, s, ?_, ?_, ?_⟩
      · rw [resolve_direct_found s u1 u2 title h12 c hf, if_pos hcond]
      · rw [resolve_direct_found s u1 u2 title h12 c hf, if_pos hcond]
      · rw [resolve_direct_found s u2 u1 title (Ne.symm h12) c hf',
          if_pos hcond]
    | none =>
      have hnone : ∀ c' ∈ s.conversations, ¬matchesDirect s u1 u2 c' = true :=
        List.find?_eq_none.1 hf
      have hff : findFirstDirect (createConvo s [u1, u2] false title).2.2 u1 u2 =
          some ⟨freshConvId s, false, title⟩ :=
        findFirstDirect_after_create s u1 u2 title hnone hfc
      have hff2 : findFirstDirect (createConvo s [u1, u2] false title).2.2 u2 u1 =
          some ⟨freshConvId s, false, title⟩ :=
        (findFirstDirect_symm (createConvo s [u1, u2] false title).2.2 u2 u1).trans hff
      have hms : membershipsOf (createConvo s [u1, u2] false title).2.2
          (Conversation.id ⟨freshConvId s, false, title⟩) =
          freshMemberships s [u1, u2] :=
        membershipsOf_after_create s u1 u2 title hfm
      have hcond : ((membershipsOf (createConvo s [u1, u2] false title).2.2
          (Conversation.id ⟨freshConvId s, false, title⟩)).length == 2) = true := by
        rw [hms]
        simp [freshMemberships, List.enum, List.enumFrom]
      refine ⟨(createConvo s [u1, u2] false title).1,
        (createConvo s [u1, u2] false title).2.1,
        (createConvo s [u1, u2] false title).2.2, ?_, ?_, ?_⟩
      · rw [resolve_direct_notfound s u1 u2 title h12 hf]
      · rw [resolve_direct_found (createConvo s [u1, u2] false title).2.2
          u1 u2 title h12 ⟨freshConvId s, false, title⟩ hff, if_pos hcond, hms]
        rfl
      · rw [resolve_direct_found (createConvo s [u1, u2] false title).2.2
          u2 u1 title (Ne.symm h12) ⟨freshConvId s, false, title⟩ hff2,
          if_pos hcond, hms]
        rfl

theorem resolve_direct_get_or_create_witness :
    ("a" : String) ≠ "b" ∧
    (∃ c ms s1,
      resolve ⟨[], [], [], [], 0⟩ "a" ["b"] false none = (.ok c ms, s1) ∧
      resolve s1 "a" ["b"] false none = (.ok c ms, s1) ∧
      resolve s1 "b" ["a"] false none = (.ok c ms, s1)) :=
  ⟨by decide,
   (resolve_direct_get_or_create ⟨[], [], [], [], 0⟩ "a" "b" none
      (by decide)).2
     (by intro c hc; exact absurd hc (List.not_mem_nil c))
     (by intro c hc; exact absurd hc (List.not_mem_nil c))
     (by intro mrow hm; exact absurd hm (List.not_mem_nil mrow))⟩

end ChatApp
